import Mathlib

/-!
Verification development for the poiseed POI collection engine
(src/poiseed.mjs).  JavaScript numbers are modelled as rationals (ℚ),
JS strings as Lean String, JS arrays as List.  The transcendental
library functions (Math.cos, Math.sin, Math.sqrt, Math.atan2, Math.PI)
are modelled as an explicit parameter structure RMath, since their
exact floating-point values are not part of the program text; every
theorem below that mentions them holds for an arbitrary choice of that
parameter unless stated otherwise.
-/

/-- JS String.prototype.startsWith, on character lists
(first argument: the string, second: the candidate pattern). -/
def startsWithL : List Char → List Char → Bool
  | _, [] => true
  | [], _ :: _ => false
  | a :: as, b :: bs => a == b && startsWithL as bs

/-- JS String.prototype.includes (substring test) on character lists. -/
def containsL : List Char → List Char → Bool
  | [], pat => pat.isEmpty
  | a :: as, pat => startsWithL (a :: as) pat || containsL as pat

/-- JS s.includes(pat). -/
def strIncludes (s pat : String) : Bool :=
  containsL s.data pat.data

/-- JS String.prototype.toLowerCase, character by character (the place
data handled by the engine is ASCII, where the JS and Lean per-character
lowercase maps agree).  Defined over the character list so that it
evaluates by kernel reduction. -/
def jsToLower (s : String) : String :=
  String.mk (s.data.map Char.toLower)

/-- JS String.prototype.trim: strip leading and trailing whitespace. -/
def jsTrim (s : String) : String :=
  String.mk
    (((s.data.dropWhile Char.isWhitespace).reverse.dropWhile
        Char.isWhitespace).reverse)

/-- A JS word character for the purposes of the regex boundary \b:
[A-Za-z0-9_]. -/
def jsWordChar (c : Char) : Bool :=
  c.isAlphanum || c == '_'

/-- Scanner for the regex \b\d{1,6}\b of isAddressLike (poiseed.mjs:239).
It matches iff the string has a maximal digit run of length 1..6 whose
neighbours (if any) are non-word characters.  First argument: whether
the previous character was a word character; second: the state of the
current digit run, as (length so far, run started at a word boundary). -/
def numScan : Bool → Option (ℕ × Bool) → List Char → Bool
  | _, run, [] =>
    match run with
    | some (k, b) => b && decide (k ≤ 6)
    | none => false
  | prevWord, run, c :: rest =>
    if c.isDigit then
      match run with
      | some (k, b) => numScan true (some (k + 1, b)) rest
      | none => numScan true (some (1, !prevWord)) rest
    else
      match run with
      | some (k, b) =>
        if b && decide (k ≤ 6) && !jsWordChar c then true
        else numScan (jsWordChar c) none rest
      | none => numScan (jsWordChar c) none rest

/-- The test of the regex \b\d{1,6}\b (hasNumber in isAddressLike). -/
def hasSmallNum (s : String) : Bool :=
  numScan false none s.data

/-- The street-type words of the hasStreetWord regex (poiseed.mjs:240).
Each alternative of the regex is a literal with at most an optional
trailing dot, and the regex has no anchors, so the regex matches iff
one of the base literals occurs as a substring. -/
def STREET_WORDS : List String :=
  ["street", "st", "ave", "avenue", "blvd", "boulevard", "rd", "road",
   "dr", "drive", "ln", "lane", "ct", "court", "pl", "place",
   "pkwy", "parkway", "suite", "ste", "apt"]

/-- poiseed.mjs isAddressLike. -/
def isAddressLike (name : String) : Bool :=
  let n := jsToLower name
  hasSmallNum n && STREET_WORDS.any (fun w => strIncludes n w)

/-- poiseed.mjs GENERIC_BAD_NAMES. -/
def GENERIC_BAD_NAMES : List String :=
  ["website", "home", "my location", "new york"]

/-- poiseed.mjs isGenericName. -/
def isGenericName (name : String) : Bool :=
  let n := jsToLower (jsTrim name)
  decide (0 < n.length) && GENERIC_BAD_NAMES.contains n

/-- poiseed.mjs POI_CATEGORIES: the fixed 13-category taxonomy. -/
def POI_CATEGORIES : List String :=
  ["park", "restaurant", "attraction", "cafe", "bar", "shopping",
   "library", "beach", "gym", "venue", "entertainment", "health", "misc"]

/-- poiseed.mjs GENERIC_PLACE_TYPES. -/
def GENERIC_PLACE_TYPES : List String :=
  ["establishment", "point_of_interest", "locality", "political",
   "sublocality", "neighborhood", "administrative_area_level_1",
   "administrative_area_level_2", "country", "route", "street_address",
   "premise", "colloquial_area"]

/-- poiseed.mjs EXCLUDED_GLOBAL_TYPES. -/
def EXCLUDED_GLOBAL_TYPES : List String :=
  ["locality", "political", "country", "administrative_area_level_1",
   "administrative_area_level_2", "administrative_area_level_3",
   "sublocality", "neighborhood", "colloquial_area"]

/-- One entry of poiseed.mjs CLASSIFICATION_RULES.  excludeTypes is
optional in the source object (absent for most categories); an absent
field behaves as the empty exclusion list through the optional-chaining
calls, and is modelled as none. -/
structure CatRules where
  priority : ℕ
  types : List String
  keywords : List String
  excludeTypes : Option (List String)
  excludeKeywords : List String
deriving DecidableEq

/-- poiseed.mjs CLASSIFICATION_RULES, as the ordered key/value list that
Object.entries yields (insertion order of the object literal). -/
def CLASSIFICATION_RULES : List (String × CatRules) :=
  [("park", ⟨10, ["park", "campground", "rv_park"],
      ["park", "garden", "green", "playground", "recreation", "square",
       "plaza", "promenade", "waterfront", "pier", "trail", "commons", "field"],
      none,
      ["restaurant", "bar", "cafe", "hotel", "store", "shop", "market",
       "pharmacy", "bank"]⟩),
   ("shopping", ⟨9,
      ["shopping_mall", "department_store", "clothing_store", "shoe_store",
       "jewelry_store", "electronics_store", "furniture_store",
       "home_goods_store", "book_store", "bicycle_store", "store",
       "supermarket", "grocery_or_supermarket", "convenience_store",
       "drugstore", "pharmacy", "florist", "hardware_store", "laundry",
       "pet_store"],
      ["store", "shop", "market", "boutique", "outlet", "retail"],
      none, []⟩),
   ("entertainment", ⟨8, ["movie_theater", "amusement_park"],
      ["cinema", "theater", "theatre", "movie", "amusement", "arcade",
       "entertainment"],
      some ["store"], ["store", "shop"]⟩),
   ("venue", ⟨7, ["stadium", "bowling_alley", "casino"],
      ["stadium", "arena", "venue", "hall", "center", "auditorium",
       "amphitheater", "bowling", "casino", "convention"],
      some ["store", "clothing_store", "electronics_store", "book_store",
            "shoe_store"],
      ["store", "shop", "market", "boutique", "retail"]⟩),
   ("attraction", ⟨6,
      ["tourist_attraction", "museum", "zoo", "aquarium", "art_gallery",
       "church", "hindu_temple", "mosque", "synagogue", "city_hall",
       "courthouse", "embassy"],
      ["museum", "gallery", "monument", "memorial", "historic",
       "cathedral", "church", "temple", "bridge", "tower", "statue"],
      none, []⟩),
   ("cafe", ⟨5, ["cafe", "bakery"],
      ["cafe", "coffee", "bakery", "patisserie", "espresso"], none, []⟩),
   ("bar", ⟨4, ["bar", "night_club"],
      ["bar", "pub", "tavern", "lounge", "brewery", "taproom", "cocktail",
       "nightclub"],
      some ["drugstore", "convenience_store", "pharmacy", "health"],
      ["cvs", "duane reade", "walgreens", "rite aid"]⟩),
   ("restaurant", ⟨3, ["restaurant", "meal_takeaway", "meal_delivery", "food"],
      ["restaurant", "bistro", "eatery", "kitchen", "grill", "diner",
       "pizzeria", "steakhouse"],
      some ["drugstore", "convenience_store", "pharmacy", "health"],
      ["cvs", "duane reade", "walgreens", "rite aid"]⟩),
   ("beach", ⟨2, ["natural_feature"],
      ["beach", "shore", "waterfront", "marina", "harbor", "pier",
       "wharf", "dock"], none, []⟩),
   ("library", ⟨2, ["library", "school", "university"],
      ["library", "school", "university", "college", "academy",
       "institute"], none, []⟩),
   ("gym", ⟨2, ["gym", "spa"],
      ["gym", "fitness", "yoga", "pilates", "crossfit", "spa",
       "wellness"], none, []⟩),
   ("health", ⟨2,
      ["doctor", "hospital", "dentist", "pharmacy", "physiotherapist",
       "health", "dentistry", "medical_lab", "veterinary_care"],
      ["doctor", "dr.", " md", "hospital", "medical", "clinic", "health",
       "dentist", "dental", "physician", "surgery", "care center"],
      none, []⟩),
   ("misc", ⟨1, [], [], none, []⟩)]

/-- The object lookup CLASSIFICATION_RULES[category]. -/
def rulesFor (category : String) : Option CatRules :=
  (CLASSIFICATION_RULES.find? (fun pr => pr.1 == category)).map (fun pr => pr.2)

/-- A raw place from the gateway, as read by the pipeline.  Only the
fields the engine reads are modelled; geometry.location is flattened. -/
structure RawPlace where
  name : String
  types : List String
  vicinity : Option String
  place_id : Option String
  lat : ℚ
  lon : ℚ
  rating : Option ℚ
  price_level : Option ℚ
deriving DecidableEq

/-- rules.excludeTypes?.some(type => placeTypes.includes(type)):
an absent excludeTypes field is falsy. -/
def excludesByType (r : CatRules) (placeTypes : List String) : Bool :=
  match r.excludeTypes with
  | some ts => ts.any (fun t => placeTypes.contains t)
  | none => false

/-- rules.excludeKeywords?.some(keyword => placeName.includes(keyword)). -/
def excludesByKeyword (r : CatRules) (placeName : String) : Bool :=
  r.excludeKeywords.any (fun k => strIncludes placeName k)

/-- rules.types?.filter(type => placeTypes.includes(type)).length. -/
def typeMatchCount (r : CatRules) (placeTypes : List String) : ℕ :=
  (r.types.filter (fun t => placeTypes.contains t)).length

/-- rules.keywords?.filter(keyword => placeName.includes(keyword)).length. -/
def keywordMatchCount (r : CatRules) (placeName : String) : ℕ :=
  (r.keywords.filter (fun k => strIncludes placeName k)).length

/-- The special liquor-store condition shared by getBestCategory (+1
confidence) and validatePlace (immediate accept) for the bar category. -/
def barLiquorCase (category : String) (placeTypes : List String) : Bool :=
  category == "bar" && placeTypes.contains "liquor_store" &&
    !(placeTypes.any (fun t =>
        (["drugstore", "convenience_store", "store"] : List String).contains t))

/-- The running best match of getBestCategory. -/
structure BestMatch where
  category : String
  priority : ℕ
  confidence : ℕ
deriving DecidableEq

/-- One iteration of the for-loop of getBestCategory. -/
def bestStep (placeName : String) (placeTypes : List String)
    (best : BestMatch) (entry : String × CatRules) : BestMatch :=
  let category := entry.1
  let rules := entry.2
  if excludesByType rules placeTypes then best
  else if excludesByKeyword rules placeName then best
  else
    let confidence := typeMatchCount rules placeTypes * 2
      + keywordMatchCount rules placeName
      + (if barLiquorCase category placeTypes then 1 else 0)
    if 0 < confidence ∧ (best.priority < rules.priority ∨
        (rules.priority = best.priority ∧ best.confidence < confidence)) then
      ⟨category, rules.priority, confidence⟩
    else best

/-- poiseed.mjs getBestCategory. -/
def getBestCategory (place : RawPlace) : String :=
  let placeName := jsToLower place.name
  (CLASSIFICATION_RULES.foldl (bestStep placeName place.types)
    ⟨"misc", 0, 0⟩).category

/-- poiseed.mjs hasOnlyGenericTypes. -/
def hasOnlyGenericTypes (types : List String) : Bool :=
  types.isEmpty ||
    (types.filter (fun t => !GENERIC_PLACE_TYPES.contains t)).isEmpty

/-- poiseed.mjs containsExcludedGlobalType. -/
def containsExcludedGlobalType (types : List String) : Bool :=
  types.any (fun t => EXCLUDED_GLOBAL_TYPES.contains t)

/-- poiseed.mjs isGloballyIneligible. -/
def isGloballyIneligible (place : RawPlace) : Bool :=
  containsExcludedGlobalType place.types ||
    (hasOnlyGenericTypes place.types &&
      (isGenericName place.name || isAddressLike place.name))

/-- poiseed.mjs validatePlace. -/
def validatePlace (place : RawPlace) (category : String) : Bool :=
  match rulesFor category with
  | none => false
  | some rules =>
    let placeName := jsToLower place.name
    let placeTypes := place.types
    if isGloballyIneligible place then false
    else if excludesByType rules placeTypes then false
    else if excludesByKeyword rules placeName then false
    else
      let hasMatchingType := rules.types.any (fun t => placeTypes.contains t)
      let hasMatchingKeyword :=
        rules.keywords.any (fun k => strIncludes placeName k)
      if barLiquorCase category placeTypes then true
      else if category == "misc" &&
          (hasOnlyGenericTypes placeTypes || isGenericName place.name ||
            isAddressLike place.name) then false
      else hasMatchingType || hasMatchingKeyword || category == "misc"

/-- JS (value || null) on an optional number: 0 is falsy and becomes null. -/
def jsOrNullQ (o : Option ℚ) : Option ℚ :=
  match o with
  | some q => if q = 0 then none else some q
  | none => none

/-- Classification method tag of a pipeline output
(classificationMethod: 'AI' or 'Rules'). -/
inductive ClassMethod
  | AI
  | Rules
deriving DecidableEq

/-- A pipeline record as built by step 2 of processPlaces and enriched by
step 5.  _original keeps the raw gateway record (None models an entry
whose _original was stripped, as in the cleaned output arrays). -/
structure ClassifiedPlace where
  name : String
  description : String
  latitude : ℚ
  longitude : ℚ
  category : String
  types : List String
  rating : Option ℚ
  priceLevel : Option ℚ
  original : Option RawPlace
  confidence : Option ℚ
  reasoning : Option String
  classificationMethod : Option ClassMethod
  isValidated : Bool
deriving DecidableEq

/-- validatePlace applied through the optional _original field. -/
def validateOriginal (o : Option RawPlace) (category : String) : Bool :=
  match o with
  | some p => validatePlace p category
  | none => false

/-- Step 2 of processPlaces: the rule-classified record for one raw place. -/
def mkClassified (place : RawPlace) : ClassifiedPlace where
  name := place.name
  description := place.vicinity.getD ""
  latitude := place.lat
  longitude := place.lon
  category := getBestCategory place
  types := place.types
  rating := jsOrNullQ place.rating
  priceLevel := jsOrNullQ place.price_level
  original := some place
  confidence := none
  reasoning := none
  classificationMethod := none
  isValidated := false

/-- A (well-formed-JSON) response of the AI classifier as parsed by
classifyPlaceWithAI, before any of the acceptance checks. -/
structure AIRaw where
  category : String
  confidence : ℚ
  reasoning : String
  isValid : Bool
deriving DecidableEq

/-- The non-AI enrichment of step 5 (both its else-branch and the
fallback inside the AI branch). -/
def markRuleBased (cp : ClassifiedPlace) : ClassifiedPlace :=
  { cp with confidence := some (4/5), reasoning := some "Rule-based classification",
            classificationMethod := some ClassMethod.Rules, isValidated := true }

/-- place._original.place_id || place.name: the key used to look an AI
result up in the collection map (empty place_id is falsy). -/
def aiLookupKey (cp : ClassifiedPlace) : String :=
  match cp.original with
  | some o =>
    match o.place_id with
    | some pid => if pid = "" then cp.name else pid
    | none => cp.name
  | none => cp.name

/-- The per-place body of the AI stage of processPlaces (step 5).  The
collection map built by batchClassifyWithAI is abstracted as an
arbitrary lookup function, which covers every possible behaviour of the
remote classifier and of the keyed map. -/
def applyAI (filterCategories : List String)
    (lookup : String → Option AIRaw) (cp : ClassifiedPlace) : ClassifiedPlace :=
  match lookup (aiLookupKey cp) with
  | some aiResult =>
    if aiResult.isValid then
      let aiCategory := aiResult.category
      let aiValid := validateOriginal cp.original aiCategory
      let allowed := filterCategories.length = 0 ∨ filterCategories.contains aiCategory
      if aiValid ∧ allowed then
        { cp with category := aiCategory, confidence := some aiResult.confidence,
                  reasoning := some aiResult.reasoning,
                  classificationMethod := some ClassMethod.AI, isValidated := true }
      else markRuleBased cp
    else markRuleBased cp
  | none => markRuleBased cp

/-- poiseed.mjs processPlaces: the five-stage classification pipeline.
useAI is the caller flag, hasOpenAI models the presence of the OpenAI
client (both must hold for step 5 to run, as in useAI && openai). -/
def processPlaces (rawPlaces : List RawPlace) (filterCategories : List String)
    (useAI : Bool) (hasOpenAI : Bool)
    (lookup : String → Option AIRaw) : List ClassifiedPlace :=
  let preFiltered := rawPlaces.filter (fun p => !isGloballyIneligible p)
  let classified := preFiltered.map mkClassified
  let validated :=
    classified.filter (fun cp => validateOriginal cp.original cp.category)
  let categoryFiltered :=
    if 0 < filterCategories.length then
      validated.filter (fun cp => filterCategories.contains cp.category)
    else validated
  if useAI && hasOpenAI && decide (0 < categoryFiltered.length) then
    categoryFiltered.map (applyAI filterCategories lookup)
  else
    categoryFiltered.map markRuleBased

/-- JS Number.prototype.toFixed(5) on a rational: sign of the argument,
then the absolute value rounded to the nearer 5-decimal string (ties
away from zero), with exactly 5 fraction digits. -/
def toFixed5 (q : ℚ) : String :=
  let sign := if q < 0 then "-" else ""
  let n : ℤ := round (|q| * 100000)
  let whole := n / 100000
  let frac := (n % 100000).toNat
  let fracDigits := toString frac
  let padded :=
    String.mk (List.replicate (5 - fracDigits.length) '0') ++ fracDigits
  sign ++ toString whole ++ "." ++ padded

/-- poiseed.mjs getPOIKey: the deduplication key.  The template literal
branch is taken when _original exists and carries a truthy place_id. -/
def getPOIKey (poi : ClassifiedPlace) : String :=
  match poi.original with
  | some o =>
    match o.place_id with
    | some pid =>
      if pid = "" then
        "name:" ++ poi.name ++ "|" ++ toFixed5 poi.latitude ++ "," ++ toFixed5 poi.longitude
      else "pid:" ++ pid
    | none =>
      "name:" ++ poi.name ++ "|" ++ toFixed5 poi.latitude ++ "," ++ toFixed5 poi.longitude
  | none =>
    "name:" ++ poi.name ++ "|" ++ toFixed5 poi.latitude ++ "," ++ toFixed5 poi.longitude

/-- An IngestPayload as produced by mapToPayload. -/
structure Payload where
  name : String
  description : String
  latitude : Option ℚ
  longitude : Option ℚ
  category : String
  is_active : Bool
deriving DecidableEq

/-- poiseed.mjs coerceNumber, on the values that occur in this model:
a number is returned unchanged and null becomes 0 (Number(null) === 0,
which is finite).  Strings and NaN producers are outside the model. -/
def coerceNumber (v : Option ℚ) : Option ℚ :=
  match v with
  | some q => some q
  | none => some 0

/-- The latitude fallback chain of mapToPayload:
entry.latitude ?? entry.lat ?? entry.geometry?.location?.lat ??
entry._original?.geometry?.location?.lat ?? null.  A ClassifiedPlace
always carries latitude, so the chain reads that field; the _original
fallback is kept for fidelity via Option.orElse over absent fields. -/
def payloadLat (entry : ClassifiedPlace) : Option ℚ :=
  some entry.latitude

/-- The longitude fallback chain of mapToPayload (see payloadLat). -/
def payloadLon (entry : ClassifiedPlace) : Option ℚ :=
  some entry.longitude

/-- poiseed.mjs mapToPayload.  The chain
(entry.description || entry.vicinity || '') falls through on the empty
string; a ClassifiedPlace carries no vicinity field of its own, so for
the records this model feeds to the ingester the chain evaluates to
entry.description when that is non-empty and to '' otherwise, which is
entry.description itself.  (entry.category || 'misc') likewise falls
through on the empty string. -/
def mapToPayload (entry : ClassifiedPlace) : Payload where
  name := jsTrim entry.name
  description := entry.description
  latitude := coerceNumber (payloadLat entry)
  longitude := coerceNumber (payloadLon entry)
  category := if entry.category ≠ "" then entry.category else "misc"
  is_active := true

/-- poiseed.mjs isValidPayload. -/
def isValidPayload (p : Payload) : Bool :=
  p.name ≠ "" &&
    (match p.latitude with
     | some la => decide (-90 ≤ la ∧ la ≤ 90)
     | none => false) &&
    (match p.longitude with
     | some lo => decide (-180 ≤ lo ∧ lo ≤ 180)
     | none => false) &&
    p.category ≠ ""

/-- The state of a StreamingIngester (the pendingIngestion promise slot
is modelled separately, in the event-loop model below). -/
structure IngesterState where
  buffer : List Payload
  seenPlaceIds : List String
  totalIngested : ℕ
  totalSkipped : ℕ
  batchesCompleted : ℕ
  batchSize : ℕ
  dryRun : Bool
  hasAdminToken : Bool
deriving DecidableEq

/-- StreamingIngester.addPOI: returns the boolean result and the new
state.  The key is inserted into seenPlaceIds before the payload is
validated. -/
def addPOI (s : IngesterState) (poi : ClassifiedPlace) : Bool × IngesterState :=
  let key := getPOIKey poi
  if s.seenPlaceIds.contains key then (false, s)
  else
    let s1 := { s with seenPlaceIds := s.seenPlaceIds ++ [key] }
    let payload := mapToPayload poi
    if isValidPayload payload then
      (true, { s1 with buffer := s1.buffer ++ [payload] })
    else (false, s1)

/-- The result object of one flush() call. -/
structure FlushResult where
  created : ℕ
  skipped : ℕ
  isError : Bool
deriving DecidableEq

/-- The outcome of one postBatch network call: the server reply
(createdCount, skippedCount) or a thrown transport/remote error. -/
inductive NetOutcome
  | ok (createdCount : ℕ) (skippedCount : ℕ)
  | fail
deriving DecidableEq

/-- StreamingIngester.flush, with the network outcome of its (at most
one) postBatch call passed explicitly.  splice(0, batchSize) removes the
first batchSize items; on a thrown error, buffer.unshift(...batch) puts
them back in front of the remainder. -/
def flush (s : IngesterState) (net : NetOutcome) : FlushResult × IngesterState :=
  if s.buffer.length = 0 then (⟨0, 0, false⟩, s)
  else
    let batch := s.buffer.take s.batchSize
    let rest := s.buffer.drop s.batchSize
    if s.dryRun then (⟨batch.length, 0, false⟩, { s with buffer := rest })
    else if !s.hasAdminToken then
      (⟨0, batch.length, false⟩, { s with buffer := rest })
    else
      match net with
      | NetOutcome.ok created skipped =>
        (⟨created, skipped, false⟩,
         { s with buffer := rest,
                  totalIngested := s.totalIngested + created,
                  totalSkipped := s.totalSkipped + skipped,
                  batchesCompleted := s.batchesCompleted + 1 })
      | NetOutcome.fail =>
        (⟨0, 0, true⟩, { s with buffer := batch ++ rest })

/-- The while-loop of StreamingIngester.flushAll, with fuel.  net gives
the outcome of the i-th flush attempt.  Returns none when the fuel runs
out before the buffer is empty, and the final state otherwise; the
unfueled JS loop runs while (this.buffer.length > 0) { await this.flush() }. -/
def flushAllLoop (net : ℕ → NetOutcome) : ℕ → ℕ → IngesterState → Option IngesterState
  | 0, _, _ => none
  | fuel + 1, i, s =>
    if s.buffer.length = 0 then some s
    else flushAllLoop net fuel (i + 1) (flush s (net i)).2

/-- flushAll never terminates from state s under outcome stream net:
no amount of fuel makes the loop reach an empty buffer. -/
def flushAllDiverges (net : ℕ → NetOutcome) (s : IngesterState) : Prop :=
  ∀ fuel i, flushAllLoop net fuel i s = none

/-- Event-loop model of the flush concurrency of StreamingIngester.
Promises/flushes are numbered; pending holds the promise stored in
this.pendingIngestion; inFlight holds the flushes whose postBatch call
has not yet returned; waiters holds, in arrival order, the tasks
suspended on await this.pendingIngestion together with the promise they
await; started records every flush that was ever started.  The model
fixes dryRun = false, an admin token present, and a non-empty buffer at
each start, so each started flush performs a real network call. -/
structure AsyncState where
  buffer : List Payload
  batchSize : ℕ
  pending : Option ℕ
  inFlight : List ℕ
  nextId : ℕ
  waiters : List (ℕ × ℕ)
  started : List ℕ
deriving DecidableEq

/-- The synchronous segment this.pendingIngestion = this.flush().then(...):
flush() runs synchronously up to its await of postBatch — in particular
splice(0, batchSize) removes the batch — and the wrapper promise is
stored in pendingIngestion.  An empty buffer makes flush() return an
already-resolved promise with no network call; the wrapper then clears
pendingIngestion on its microtask. -/
def startFlushSeg (st : AsyncState) : AsyncState :=
  if st.buffer.isEmpty then { st with pending := none }
  else
    let f := st.nextId
    { st with buffer := st.buffer.drop st.batchSize,
              inFlight := st.inFlight ++ [f],
              pending := some f,
              nextId := f + 1,
              started := st.started ++ [f] }

/-- The synchronous segment of one flushIfReady() call by task tid:
a no-op below batchSize; otherwise, if pendingIngestion is set, the task
suspends on it; otherwise it starts a flush at once. -/
def callFlushIfReady (tid : ℕ) (st : AsyncState) : AsyncState :=
  if st.buffer.length < st.batchSize then st
  else
    match st.pending with
    | some p => { st with waiters := st.waiters ++ [(tid, p)] }
    | none => startFlushSeg st

/-- The postBatch reply for flush f arrives: f leaves the in-flight set,
the .then wrapper runs (this.pendingIngestion = null), and then every
task that awaited that wrapper promise resumes, in FIFO order.  A
resumed flushIfReady caller continues directly after its await — it
starts a new flush without re-checking pendingIngestion. -/
def completeFlush (f : ℕ) (st : AsyncState) : AsyncState :=
  if st.inFlight.contains f then
    let resumed := st.waiters.filter (fun w => w.2 == f)
    let st1 := { st with inFlight := st.inFlight.filter (fun g => g ≠ f),
                         pending := none,
                         waiters := st.waiters.filter (fun w => w.2 ≠ f) }
    resumed.foldl (fun acc _ => startFlushSeg acc) st1
  else st

/-- A concrete payload for the concurrency scenario. -/
def demoPayload : Payload :=
  ⟨"Central Park", "New York", some 40, some (-73), "park", true⟩

/-- Initial event-loop state for the single-flight scenario: three
buffered payloads, batchSize 1, no flush outstanding. -/
def demoAsyncInit : AsyncState :=
  ⟨[demoPayload, demoPayload, demoPayload], 1, none, [], 0, [], []⟩

/-- The schedule that breaks single-flight: task 0 starts flush 0; tasks
1 and 2 call flushIfReady while flush 0 is outstanding and suspend on
it; then the reply for flush 0 arrives. -/
def demoAsyncRun : AsyncState :=
  completeFlush 0 (callFlushIfReady 2 (callFlushIfReady 1 (callFlushIfReady 0 demoAsyncInit)))

/-- The mathematical library functions used by the samplers (Math.PI,
Math.cos, Math.sin, Math.sqrt, Math.atan2), as explicit parameters:
their exact values are not part of the program text. -/
structure RMath where
  piQ : ℚ
  cosQ : ℚ → ℚ
  sinQ : ℚ → ℚ
  sqrtQ : ℚ → ℚ
  atan2Q : ℚ → ℚ → ℚ
deriving Inhabited

/-- GridSampler.metersToLatDelta / SpiralWalker.metersToLatDelta. -/
def metersToLatDelta (meters : ℚ) : ℚ :=
  meters / 111320

/-- GridSampler.metersToLonDelta / SpiralWalker.metersToLonDelta. -/
def metersToLonDelta (M : RMath) (meters lat : ℚ) : ℚ :=
  meters / (111320 * M.cosQ (lat * M.piQ / 180))

/-- GridSampler.distanceBetweenPoints (haversine with the modelled
library functions). -/
def distanceBetweenPoints (M : RMath) (lat1 lon1 lat2 lon2 : ℚ) : ℚ :=
  let dLat := (lat2 - lat1) * M.piQ / 180
  let dLon := (lon2 - lon1) * M.piQ / 180
  let a := M.sinQ (dLat / 2) * M.sinQ (dLat / 2) +
    M.cosQ (lat1 * M.piQ / 180) * M.cosQ (lat2 * M.piQ / 180) *
      M.sinQ (dLon / 2) * M.sinQ (dLon / 2)
  let c := 2 * M.atan2Q (M.sqrtQ a) (M.sqrtQ (1 - a))
  6371000 * c

/-- A coordinate pair. -/
structure Coord where
  lat : ℚ
  lon : ℚ
deriving DecidableEq

/-- A geocoder viewport: named corners, as used by GridSampler. -/
structure GeoBounds where
  northeast : Coord
  southwest : Coord
deriving DecidableEq

/-- A query point emitted by GridSampler.generatePoints. -/
structure QueryPoint where
  lat : ℚ
  lon : ℚ
  priority : ℚ
deriving DecidableEq

/-- A GridSampler after its constructor ran.  The constructor defaults
(options.centerDensity || 400, etc.) only replace absent or zero
options; runSeedCli always passes radius, radius * 2 and maxPoints,
validated to be at least 1 by parseSeedFlags. -/
structure GridSampler where
  bounds : GeoBounds
  centerDensity : ℚ
  edgeDensity : ℚ
  maxPoints : ℕ
deriving DecidableEq

/-- The bounds check of generatePoints (newLat >= southwest.lat && ...). -/
def inGridBounds (b : GeoBounds) (la lo : ℚ) : Bool :=
  decide (b.southwest.lat ≤ la ∧ la ≤ b.northeast.lat ∧
    b.southwest.lon ≤ lo ∧ lo ≤ b.northeast.lon)

/-- The per-ring priority of generatePoints:
1.0 - min(ringRadius / maxDist, 1) * 0.5. -/
def ringPriority (maxDist ringRadius : ℚ) : ℚ :=
  1 - min (ringRadius / maxDist) 1 * (1 / 2)

/-- The inner for-loop of generatePoints: i counts from 0 while
i < pointsInRing and points.length < maxPoints; each candidate point is
kept only when it falls inside the bounding box.  rem is the number of
remaining iterations (pointsInRing - i). -/
def addRingPoints (M : RMath) (g : GridSampler) (cLat cLon prio r : ℚ)
    (nPts : ℕ) : ℕ → ℕ → List QueryPoint → List QueryPoint
  | _, 0, acc => acc
  | i, rem + 1, acc =>
    if acc.length < g.maxPoints then
      let angle := 2 * M.piQ * i / nPts
      let latOffset := metersToLatDelta r * M.cosQ angle
      let lonOffset := metersToLonDelta M r cLat * M.sinQ angle
      let newLat := cLat + latOffset
      let newLon := cLon + lonOffset
      let acc2 :=
        if inGridBounds g.bounds newLat newLon then acc ++ [⟨newLat, newLon, prio⟩]
        else acc
      addRingPoints M g cLat cLon prio r nPts (i + 1) rem acc2
    else acc

/-- The loop state of the while-loop of generatePoints. -/
structure RingState where
  points : List QueryPoint
  ringRadius : ℚ
  ringIndex : ℕ
deriving DecidableEq

/-- One iteration of the while-loop of generatePoints. -/
def ringStep (M : RMath) (g : GridSampler) (cLat cLon maxDist : ℚ)
    (st : RingState) : RingState :=
  let distFrac := min (st.ringRadius / maxDist) 1
  let currentDensity :=
    g.centerDensity + (g.edgeDensity - g.centerDensity) * distFrac
  let circumference := 2 * M.piQ * st.ringRadius
  let pointsInRing : ℕ := (max 4 ⌊circumference / currentDensity⌋).toNat
  let priority := ringPriority maxDist st.ringRadius
  let pts := addRingPoints M g cLat cLon priority st.ringRadius
    pointsInRing 0 pointsInRing st.points
  let k := st.ringIndex + 1
  ⟨pts, g.centerDensity * k + (g.edgeDensity - g.centerDensity) * ((k : ℚ) / 10), k⟩

/-- The guard of the while-loop of generatePoints:
ringRadius < maxDist && points.length < maxPoints. -/
def ringGuard (g : GridSampler) (maxDist : ℚ) (st : RingState) : Prop :=
  st.ringRadius < maxDist ∧ st.points.length < g.maxPoints

instance (g : GridSampler) (maxDist : ℚ) (st : RingState) :
    Decidable (ringGuard g maxDist st) := by
  unfold ringGuard
  infer_instance

/-- The while-loop of generatePoints, with fuel.  The source loop is
unfueled; ringLoop_ends below shows that the fuel chosen in
generatePoints suffices to reach a state where the guard fails, so the
fueled loop computes the loop's exit state. -/
def ringLoop (M : RMath) (g : GridSampler) (cLat cLon maxDist : ℚ) :
    ℕ → RingState → RingState
  | 0, st => st
  | fuel + 1, st =>
    if ringGuard g maxDist st then
      ringLoop M g cLat cLon maxDist fuel (ringStep M g cLat cLon maxDist st)
    else st

/-- Stable insertion of a point into a descending-priority list: the new
point goes after every point of greater or equal priority, which is
what a stable sort with the comparator (a, b) => b.priority - a.priority
produces. -/
def insertDesc (x : QueryPoint) : List QueryPoint → List QueryPoint
  | [] => [x]
  | y :: ys =>
    if y.priority < x.priority then x :: y :: ys
    else y :: insertDesc x ys

/-- points.sort((a, b) => b.priority - a.priority): a stable descending
sort by priority (Array.prototype.sort is stable). -/
def sortByPriorityDesc (l : List QueryPoint) : List QueryPoint :=
  l.foldl (fun acc x => insertDesc x acc) []

/-- The box centroid latitude of generatePoints. -/
def gridCenterLat (g : GridSampler) : ℚ :=
  (g.bounds.northeast.lat + g.bounds.southwest.lat) / 2

/-- The box centroid longitude of generatePoints. -/
def gridCenterLon (g : GridSampler) : ℚ :=
  (g.bounds.northeast.lon + g.bounds.southwest.lon) / 2

/-- maxDist of generatePoints: the larger of the haversine distances
from the centroid to the box's north edge and to its east edge (the
quantity the spec calls the box's half-diagonal). -/
def gridMaxDist (M : RMath) (g : GridSampler) : ℚ :=
  max
    (distanceBetweenPoints M (gridCenterLat g) (gridCenterLon g)
      g.bounds.northeast.lat (gridCenterLon g))
    (distanceBetweenPoints M (gridCenterLat g) (gridCenterLon g)
      (gridCenterLat g) g.bounds.northeast.lon)

/-- The state of the ring loop before its first iteration: the centroid
pushed with priority 1.0, ringRadius = centerDensity, ringIndex = 1. -/
def gridInit (g : GridSampler) : RingState :=
  ⟨[⟨gridCenterLat g, gridCenterLon g, 1⟩], g.centerDensity, 1⟩

/-- The fuel given to the fueled ring loop; ringLoop_ends shows it
suffices for the guard to have failed at exit, so the fueled loop
computes the exit state of the source's unfueled while-loop. -/
def gridFuel (M : RMath) (g : GridSampler) : ℕ :=
  ⌈max (gridMaxDist M g) 0⌉.toNat + 2

/-- The exit state of the while-loop of generatePoints. -/
def gridRingFinal (M : RMath) (g : GridSampler) : RingState :=
  ringLoop M g (gridCenterLat g) (gridCenterLon g) (gridMaxDist M g)
    (gridFuel M g) (gridInit g)

/-- poiseed.mjs GridSampler.generatePoints. -/
def generatePoints (M : RMath) (g : GridSampler) : List QueryPoint :=
  sortByPriorityDesc (gridRingFinal M g).points

/-- The mutable state of a SpiralWalker.  direction: 0=E, 1=N, 2=W, 3=S. -/
structure SpiralWalker where
  startLat : ℚ
  startLon : ℚ
  stepMeters : ℚ
  currentLat : ℚ
  currentLon : ℚ
  stepIndex : ℕ
  direction : ℕ
  stepsInCurrentLeg : ℕ
  stepsTakenInCurrentLeg : ℕ
  legsCompleted : ℕ
deriving DecidableEq

/-- The SpiralWalker constructor. -/
def mkSpiralWalker (startLat startLon stepMeters : ℚ) : SpiralWalker :=
  ⟨startLat, startLon, stepMeters, startLat, startLon, 0, 0, 1, 0, 0⟩

/-- One return value of SpiralWalker.next. -/
structure SpiralOut where
  lat : ℚ
  lon : ℚ
  step : ℕ
deriving DecidableEq

/-- poiseed.mjs SpiralWalker.next, as a state transformer.  The
longitude delta is recomputed from the walker's current latitude on
every call. -/
def spiralNext (M : RMath) (w : SpiralWalker) : SpiralOut × SpiralWalker :=
  if w.stepIndex = 0 then
    (⟨w.currentLat, w.currentLon, 0⟩, { w with stepIndex := 1 })
  else
    let latDelta := metersToLatDelta w.stepMeters
    let lonDelta := metersToLonDelta M w.stepMeters w.currentLat
    let newLat :=
      if w.direction = 1 then w.currentLat + latDelta
      else if w.direction = 3 then w.currentLat - latDelta
      else w.currentLat
    let newLon :=
      if w.direction = 0 then w.currentLon + lonDelta
      else if w.direction = 2 then w.currentLon - lonDelta
      else w.currentLon
    let taken := w.stepsTakenInCurrentLeg + 1
    let w2 :=
      if w.stepsInCurrentLeg ≤ taken then
        let legs := w.legsCompleted + 1
        { w with currentLat := newLat, currentLon := newLon,
                 stepsTakenInCurrentLeg := 0,
                 direction := (w.direction + 1) % 4,
                 legsCompleted := legs,
                 stepsInCurrentLeg :=
                   if legs % 2 = 0 then w.stepsInCurrentLeg + 1
                   else w.stepsInCurrentLeg,
                 stepIndex := w.stepIndex + 1 }
      else
        { w with currentLat := newLat, currentLon := newLon,
                 stepsTakenInCurrentLeg := taken,
                 stepIndex := w.stepIndex + 1 }
    (⟨newLat, newLon, w.stepIndex + 1⟩, w2)

/-- The bookkeeping invariant of the spiral: the leg length is one more
than half the completed-leg count, and the direction is the
completed-leg count modulo 4. -/
def spiralInvariant (w : SpiralWalker) : Prop :=
  w.stepsInCurrentLeg = 1 + w.legsCompleted / 2 ∧
    w.direction = w.legsCompleted % 4 ∧
    w.stepsTakenInCurrentLeg < w.stepsInCurrentLeg


/-- Whether getPOIKey takes its name-based branch: the place lacks a
truthy _original.place_id. -/
def noExternalId (poi : ClassifiedPlace) : Bool :=
  match poi.original with
  | some o =>
    match o.place_id with
    | some pid => pid == ""
    | none => true
  | none => true

/-- The assigned category has at least one matching tag on the place. -/
def hasMatchingTypeFor (category : String) (p : RawPlace) : Bool :=
  match rulesFor category with
  | some r => r.types.any (fun t => p.types.contains t)
  | none => false

/-- The assigned category has at least one matching name keyword. -/
def hasMatchingKeywordFor (category : String) (p : RawPlace) : Bool :=
  match rulesFor category with
  | some r => r.keywords.any (fun k => strIncludes (jsToLower p.name) k)
  | none => false

/-- The CLASSIFICATION_RULES entry for the bar category. -/
def barRules : CatRules :=
  ⟨4, ["bar", "night_club"],
   ["bar", "pub", "tavern", "lounge", "brewery", "taproom", "cocktail",
    "nightclub"],
   some ["drugstore", "convenience_store", "pharmacy", "health"],
   ["cvs", "duane reade", "walgreens", "rite aid"]⟩

/-- A liquor store with a neutral name: no bar tag, no bar keyword. -/
def liquorPlace : RawPlace :=
  ⟨"z", ["liquor_store"], none, none, 0, 0, none, none⟩

/-- A place whose gateway record carries the external id "abc". -/
def poiWithPid : ClassifiedPlace :=
  ⟨"Cafe X", "", 1, 2, "cafe", [], none, none,
   some ⟨"Cafe X", [], none, some "abc", 1, 2, none, none⟩,
   none, none, none, false⟩

/-- A place without external id, name "A". -/
def poiUpperName : ClassifiedPlace :=
  ⟨"A", "", 1, 2, "misc", [], none, none, none, none, none, none, false⟩

/-- A place without external id, name "a", same coordinates. -/
def poiLowerName : ClassifiedPlace :=
  ⟨"a", "", 1, 2, "misc", [], none, none, none, none, none, none, false⟩

/-- An ingester holding one buffered payload, batchSize 1, live mode,
admin token configured. -/
def oneItemState : IngesterState :=
  ⟨[demoPayload], [], 0, 0, 0, 1, false, true⟩

/-- A fresh ingester, batchSize 100, live mode, token configured. -/
def freshIngester : IngesterState :=
  ⟨[], [], 0, 0, 0, 100, false, true⟩

/-- A place sharing external id "dup1" whose payload fails validation
(latitude 95 is out of range). -/
def invalidDupPoi : ClassifiedPlace :=
  ⟨"Broken Pier", "", 95, 10, "misc", [], none, none,
   some ⟨"Broken Pier", [], none, some "dup1", 95, 10, none, none⟩,
   none, none, none, false⟩

/-- A place with the same external id "dup1" whose payload is valid. -/
def validDupPoi : ClassifiedPlace :=
  ⟨"Good Cafe", "nice", 40, 10, "cafe", [], none, none,
   some ⟨"Good Cafe", [], none, some "dup1", 40, 10, none, none⟩,
   none, none, none, false⟩

/-- A raw place that survives the whole pipeline as a park. -/
def centralPark : RawPlace :=
  ⟨"Central Park", ["park"], some "New York", some "cp1", 40, -73, none, none⟩

/-- A degenerate but legitimate instantiation of the library functions,
used only to evaluate grid theorems on a concrete input. -/
def M0 : RMath :=
  ⟨0, fun _ => 0, fun _ => 0, fun _ => 0, fun _ _ => 0⟩

/-- A concrete small sampler for witnesses. -/
def g0 : GridSampler :=
  ⟨⟨⟨1, 1⟩, ⟨0, 0⟩⟩, 1, 2, 5⟩

/-- Descending priority order along a point list. -/
def SortedDescByPriority (l : List QueryPoint) : Prop :=
  l.Pairwise (fun a b => b.priority ≤ a.priority)

/-- The invariant carried through the ring loop of generatePoints. -/
def ringInv (g : GridSampler) (cLat cLon : ℚ) (st : RingState) : Prop :=
  st.points.length ≤ g.maxPoints ∧
  (∀ p ∈ st.points, inGridBounds g.bounds p.lat p.lon = true) ∧
  st.points.head? = some ⟨cLat, cLon, 1⟩ ∧
  (∀ p ∈ st.points, p.priority ≤ 1) ∧
  ((st.ringIndex : ℚ) ≤ st.ringRadius) ∧ 1 ≤ st.ringIndex
/-- The first call of next (step 0) returns the start coordinate
unchanged, for every walker fresh from the constructor. -/
theorem spiralNext_step0 (M : RMath) (a b m : ℚ) :
    (spiralNext M (mkSpiralWalker a b m)).1 = ⟨a, b, 0⟩ := by
  simp [spiralNext, mkSpiralWalker]


/-- The constructor establishes the spiral bookkeeping invariant. -/
theorem spiralInvariant_mk (a b m : ℚ) :
    spiralInvariant (mkSpiralWalker a b m) := by
  simp [spiralInvariant, mkSpiralWalker]

/-- The leg-length schedule: the invariant is preserved by next, so the
leg length grows by exactly 1 each time legsCompleted becomes even —
after every two completed direction rotations and at no other time —
while the direction cycles E, N, W, S. -/
theorem spiralNext_leg_schedule (M : RMath) (w : SpiralWalker)
    (h : spiralInvariant w) :
    spiralInvariant (spiralNext M w).2 := by
  obtain ⟨h1, h2, h3⟩ := h
  unfold spiralNext spiralInvariant
  by_cases h0 : w.stepIndex = 0
  · rw [if_pos h0]
    exact ⟨h1, h2, h3⟩
  · rw [if_neg h0]
    dsimp only
    by_cases hleg : w.stepsInCurrentLeg ≤ w.stepsTakenInCurrentLeg + 1
    · rw [if_pos hleg]
      refine ⟨?_, ?_, ?_⟩ <;> dsimp only <;>
        first
          | omega
          | (split_ifs <;> omega)
    · rw [if_neg hleg]
      exact ⟨h1, h2, by dsimp only; omega⟩

/-- C2 is false as stated: getPOIKey uses the prefix "pid:", not "id:",
and it does not lowercase the name, so two id-less places whose names
agree only up to letter case (here "A" and "a", identical coordinates)
get different keys. -/
theorem getPOIKey_counterexample :
    getPOIKey poiWithPid ≠ "id:" ++ "abc" ∧
    getPOIKey poiWithPid = "pid:" ++ "abc" ∧
    jsToLower poiUpperName.name = jsToLower poiLowerName.name ∧
    poiUpperName.latitude = poiLowerName.latitude ∧
    poiUpperName.longitude = poiLowerName.longitude ∧
    noExternalId poiUpperName = true ∧
    noExternalId poiLowerName = true ∧
    getPOIKey poiUpperName ≠ getPOIKey poiLowerName := by
  decide

/-- C2 (amended): the key is "pid:" + externalId when the place carries
a truthy external id, and otherwise "name:" + the verbatim
(case-sensitive) name + "|" + the coordinates each rendered by
toFixed(5); two places sharing an externalId have equal keys regardless
of names and coordinates, and two places lacking an externalId with
identical names and identically rounded coordinates have equal keys. -/
theorem getPOIKey_amended :
    (∀ (p : ClassifiedPlace) (o : RawPlace) (pid : String),
        p.original = some o → o.place_id = some pid → pid ≠ "" →
        getPOIKey p = "pid:" ++ pid) ∧
    (∀ p : ClassifiedPlace, noExternalId p = true →
        getPOIKey p = "name:" ++ p.name ++ "|" ++ toFixed5 p.latitude ++ "," ++
          toFixed5 p.longitude) ∧
    (∀ (p q : ClassifiedPlace) (op oq : RawPlace) (pid : String),
        p.original = some op → q.original = some oq →
        op.place_id = some pid → oq.place_id = some pid → pid ≠ "" →
        getPOIKey p = getPOIKey q) ∧
    (∀ p q : ClassifiedPlace, noExternalId p = true → noExternalId q = true →
        p.name = q.name → toFixed5 p.latitude = toFixed5 q.latitude →
        toFixed5 p.longitude = toFixed5 q.longitude →
        getPOIKey p = getPOIKey q) := by
  have key1 : ∀ (p : ClassifiedPlace) (o : RawPlace) (pid : String),
      p.original = some o → o.place_id = some pid → pid ≠ "" →
      getPOIKey p = "pid:" ++ pid := by
    intro p o pid hp ho hne
    simp [getPOIKey, hp, ho, hne]
  have key2 : ∀ p : ClassifiedPlace, noExternalId p = true →
      getPOIKey p = "name:" ++ p.name ++ "|" ++ toFixed5 p.latitude ++ "," ++
        toFixed5 p.longitude := by
    intro p h
    cases hp : p.original with
    | none => simp [getPOIKey, hp]
    | some o =>
      cases ho : o.place_id with
      | none => simp [getPOIKey, hp, ho]
      | some pid =>
        have hpid : pid = "" := by
          simpa [noExternalId, hp, ho] using h
        simp [getPOIKey, hp, ho, hpid]
  refine ⟨key1, key2, ?_, ?_⟩
  · intro p q op oq pid hp hq hop hoq hne
    rw [key1 p op pid hp hop hne, key1 q oq pid hq hoq hne]
  · intro p q hp hq hname hlat hlon
    rw [key2 p hp, key2 q hq, hname, hlat, hlon]

/-- Witness for the amended C2 at concrete inputs. -/
theorem getPOIKey_amended_witness :
    poiWithPid.original = some ⟨"Cafe X", [], none, some "abc", 1, 2, none, none⟩ ∧
    getPOIKey poiWithPid = "pid:" ++ "abc" := by
  refine ⟨by decide, ?_⟩
  exact getPOIKey_amended.1 poiWithPid
    ⟨"Cafe X", [], none, some "abc", 1, 2, none, none⟩ "abc"
    (by decide) (by decide) (by decide)

/-- C3 fails on the code: with three buffered payloads at batchSize 1,
task 0 starts flush 0, tasks 1 and 2 call flushIfReady while flush 0 is
outstanding and suspend on it, and when flush 0 completes BOTH resumed
tasks start a flush without re-checking pendingIngestion — flushes 1
and 2 are then simultaneously in flight, and two new flushes (not one)
were started by the waiting callers. -/
theorem flushIfReady_double_flush :
    demoAsyncRun.inFlight = [1, 2] ∧
    demoAsyncRun.inFlight.length = 2 ∧
    demoAsyncRun.started = [0, 1, 2] ∧
    demoAsyncRun.waiters = [] := by
  decide

/-- C4: when a flush attempt fails with a transport/remote error (live
mode, admin token configured), the whole ingester state — in particular
the buffer, in its original order, and the three cumulative counters —
is exactly what it was before the flush started. -/
theorem flush_fail_no_loss (s : IngesterState)
    (hdry : s.dryRun = false) (htok : s.hasAdminToken = true) :
    (flush s NetOutcome.fail).2.buffer = s.buffer ∧
    (flush s NetOutcome.fail).2.totalIngested = s.totalIngested ∧
    (flush s NetOutcome.fail).2.totalSkipped = s.totalSkipped ∧
    (flush s NetOutcome.fail).2.batchesCompleted = s.batchesCompleted ∧
    (flush s NetOutcome.fail).2 = s := by
  have h : (flush s NetOutcome.fail).2 = s := by
    rcases s with ⟨buf, seen, ti, ts, bc, bs, dr, tok⟩
    simp only at hdry htok
    subst hdry
    subst htok
    unfold flush
    by_cases hb : buf.length = 0
    · simp [hb]
    · simp [hb, List.take_append_drop]
  exact ⟨by rw [h], by rw [h], by rw [h], by rw [h], h⟩

/-- Witness for C4 at a concrete one-element buffer. -/
theorem flush_fail_no_loss_witness :
    oneItemState.dryRun = false ∧ oneItemState.hasAdminToken = true ∧
    (flush oneItemState NetOutcome.fail).2 = oneItemState :=
  ⟨rfl, rfl, (flush_fail_no_loss oneItemState rfl rfl).2.2.2.2⟩

/-- C10: addPOI records the key in the seen set before validating the
payload, so a fresh place with an invalid payload is rejected, adds
nothing to the buffer, and still poisons its key; any later addPOI of a
place whose key is already seen (in particular any place with the same
key, even with a valid payload) is rejected with no state change, and
the seen set only ever grows. -/
theorem addPOI_poisoned_key (s : IngesterState) (p : ClassifiedPlace)
    (hfresh : getPOIKey p ∉ s.seenPlaceIds)
    (hinvalid : isValidPayload (mapToPayload p) = false) :
    (addPOI s p).1 = false ∧
    (addPOI s p).2.buffer = s.buffer ∧
    getPOIKey p ∈ (addPOI s p).2.seenPlaceIds ∧
    (∀ (t : IngesterState) (q : ClassifiedPlace),
        getPOIKey q ∈ t.seenPlaceIds →
        addPOI t q = (false, t)) ∧
    (∀ (t : IngesterState) (q : ClassifiedPlace) (k : String),
        k ∈ t.seenPlaceIds →
        k ∈ (addPOI t q).2.seenPlaceIds) := by
  refine ⟨?_, ?_, ?_, ?_, ?_⟩
  · unfold addPOI
    simp [hfresh, hinvalid]
  · unfold addPOI
    simp [hfresh, hinvalid]
  · unfold addPOI
    simp [hfresh, hinvalid]
  · intro t q hseen
    unfold addPOI
    simp [hseen]
  · intro t q k hk
    unfold addPOI
    dsimp only
    split_ifs <;> simp_all

/-- Witness for C10: a place with external id "dup1" and latitude 95
(invalid payload) poisons the key; a later place with the same external
id and a valid payload is rejected and the buffer is unchanged. -/
theorem addPOI_poisoned_key_witness :
    getPOIKey invalidDupPoi ∉ freshIngester.seenPlaceIds ∧
    isValidPayload (mapToPayload invalidDupPoi) = false ∧
    getPOIKey validDupPoi = getPOIKey invalidDupPoi ∧
    isValidPayload (mapToPayload validDupPoi) = true ∧
    (addPOI freshIngester invalidDupPoi).1 = false ∧
    addPOI (addPOI freshIngester invalidDupPoi).2 validDupPoi =
      (false, (addPOI freshIngester invalidDupPoi).2) := by
  refine ⟨by decide, by decide, by decide, by decide, ?_, ?_⟩
  · exact (addPOI_poisoned_key freshIngester invalidDupPoi (by decide) (by decide)).1
  · exact (addPOI_poisoned_key freshIngester invalidDupPoi (by decide)
      (by decide)).2.2.2.1 _ validDupPoi (by decide)

/-- flush never changes the configured batch size. -/
theorem flush_batchSize (s : IngesterState) (o : NetOutcome) :
    (flush s o).2.batchSize = s.batchSize := by
  unfold flush
  split_ifs <;> first | rfl | (cases o <;> rfl)

/-- A non-failing flush on a non-empty buffer strictly shrinks the
buffer (every non-throwing branch keeps buffer.slice(batchSize)). -/
theorem flush_progress (s : IngesterState) (o : NetOutcome)
    (ho : o ≠ NetOutcome.fail) (hb : ¬s.buffer.length = 0)
    (hbs : 1 ≤ s.batchSize) :
    (flush s o).2.buffer.length < s.buffer.length := by
  unfold flush
  rw [if_neg hb]
  dsimp only
  split_ifs with h1 h2
  · simp only [List.length_drop]
    omega
  · simp only [List.length_drop]
    omega
  · cases o with
    | ok c k =>
      simp only [List.length_drop]
      omega
    | fail => exact absurd rfl ho

/-- C9 is false as stated: with one buffered payload and a persistently
failing transport, each flush attempt restores the buffer unchanged, so
the flushAll loop never reaches an empty buffer — flushAll does not
terminate on this input. -/
theorem flushAll_nonterminating :
    flushAllDiverges (fun _ => NetOutcome.fail) oneItemState ∧
      oneItemState.buffer ≠ [] := by
  constructor
  · intro fuel
    induction fuel with
    | zero => intro i; rfl
    | succ n ih =>
      intro i
      have hfix : (flush oneItemState ((fun _ => NetOutcome.fail) i)).2 =
          oneItemState := by
        show (flush oneItemState NetOutcome.fail).2 = oneItemState
        decide
      have h0 : ¬(oneItemState.buffer.length = 0) := by decide
      simp only [flushAllLoop, if_neg h0]
      rw [hfix]
      exact ih (i + 1)
  · decide

/-- C9 (amended): whenever flushAll's loop returns, the buffer is empty
— no buffered record is left behind; and the loop terminates (with fuel
one more than the buffer length) provided no flush attempt it makes
fails; under a persistently failing transport it loops forever. -/
theorem flushAll_amended :
    (∀ (net : ℕ → NetOutcome) (fuel i : ℕ) (s s2 : IngesterState),
        flushAllLoop net fuel i s = some s2 → s2.buffer = []) ∧
    (∀ (net : ℕ → NetOutcome) (s : IngesterState) (i : ℕ),
        (∀ j, net j ≠ NetOutcome.fail) → 1 ≤ s.batchSize →
        ∃ s2, flushAllLoop net (s.buffer.length + 1) i s = some s2) := by
  constructor
  · intro net fuel
    induction fuel with
    | zero =>
      intro i s s2 h
      exact absurd h (by simp [flushAllLoop])
    | succ n ih =>
      intro i s s2 h
      by_cases hb : s.buffer.length = 0
      · simp only [flushAllLoop, if_pos hb, Option.some.injEq] at h
        rw [← h]
        exact List.length_eq_zero.mp hb
      · simp only [flushAllLoop, if_neg hb] at h
        exact ih (i + 1) _ s2 h
  · have main : ∀ (n : ℕ) (net : ℕ → NetOutcome) (s : IngesterState) (i : ℕ),
        (∀ j, net j ≠ NetOutcome.fail) → 1 ≤ s.batchSize →
        s.buffer.length ≤ n →
        ∃ s2, flushAllLoop net (n + 1) i s = some s2 := by
      intro n
      induction n with
      | zero =>
        intro net s i hnf hbs hlen
        have hb : s.buffer.length = 0 := by omega
        exact ⟨s, by simp [flushAllLoop, hb]⟩
      | succ m ih =>
        intro net s i hnf hbs hlen
        by_cases hb : s.buffer.length = 0
        · exact ⟨s, by simp [flushAllLoop, hb]⟩
        · have hlt := flush_progress s (net i) (hnf i) hb hbs
          obtain ⟨s2, h2⟩ := ih net (flush s (net i)).2 (i + 1) hnf
            (by rw [flush_batchSize]; exact hbs) (by omega)
          exact ⟨s2, by simp only [flushAllLoop, if_neg hb]; exact h2⟩
    intro net s i hnf hbs
    exact main s.buffer.length net s i hnf hbs le_rfl

/-- Witness for the amended C9: with every attempt succeeding, flushAll
on a one-element buffer terminates. -/
theorem flushAll_amended_witness :
    (∀ j : ℕ, (fun _ : ℕ => NetOutcome.ok 1 0) j ≠ NetOutcome.fail) ∧
    1 ≤ oneItemState.batchSize ∧
    (∃ s2, flushAllLoop (fun _ : ℕ => NetOutcome.ok 1 0)
        (oneItemState.buffer.length + 1) 0 oneItemState = some s2) :=
  ⟨fun _ => by simp, by decide,
    flushAll_amended.2 (fun _ : ℕ => NetOutcome.ok 1 0) oneItemState 0
      (fun _ => by simp) (by decide)⟩

/-- C8 is false as stated for the bar category: the special
liquor-store acceptance in validatePlace returns true for a place that
passes global eligibility and bar's exclusions but has neither a
matching bar tag nor a bar name keyword. -/
theorem validatePlace_counterexample :
    validatePlace liquorPlace "bar" = true ∧
    ("bar" : String) ≠ "misc" ∧
    isGloballyIneligible liquorPlace = false ∧
    hasMatchingTypeFor "bar" liquorPlace = false ∧
    hasMatchingKeywordFor "bar" liquorPlace = false := by
  decide

/-- C8 (amended): for a category c with rules r, validatePlace is true
exactly when the place passes global eligibility and c's exclusion
tags/keywords and then: for c = "misc", is not only-generic-typed, not
generically named and not address-like; for any other c, has a matching
tag, or a matching name keyword, or falls under the liquor-store
special case (c = "bar", a liquor_store tag, and no
drugstore/convenience_store/store tag). -/
theorem validatePlace_amended (p : RawPlace) (c : String) (r : CatRules)
    (hr : rulesFor c = some r) :
    validatePlace p c =
      (!isGloballyIneligible p && !excludesByType r p.types &&
        !excludesByKeyword r (jsToLower p.name) &&
        (if c = "misc" then
          !(hasOnlyGenericTypes p.types || isGenericName p.name ||
            isAddressLike p.name)
        else
          (barLiquorCase c p.types ||
            r.types.any (fun t => p.types.contains t) ||
            r.keywords.any (fun k => strIncludes (jsToLower p.name) k)))) := by
  unfold validatePlace
  rw [hr]
  cases hg : isGloballyIneligible p with
  | true => simp [hg]
  | false =>
    cases ht : excludesByType r p.types with
    | true => simp [hg, ht]
    | false =>
      cases hk : excludesByKeyword r (jsToLower p.name) with
      | true => simp [hg, ht, hk]
      | false =>
        cases hb : barLiquorCase c p.types with
        | true =>
          have hc : c = "bar" := by
            have := hb
            unfold barLiquorCase at this
            simp only [Bool.and_eq_true, beq_iff_eq] at this
            exact this.1.1
          subst hc
          simp [hg, ht, hk, hb]
        | false =>
          by_cases hc : c = "misc"
          · subst hc
            cases hA : (hasOnlyGenericTypes p.types || isGenericName p.name ||
                isAddressLike p.name) <;>
              simp_all
          · simp [hg, ht, hk, hb, hc]

/-- Witness for the amended C8 at the liquor-store input. -/
theorem validatePlace_amended_witness :
    rulesFor "bar" = some barRules ∧
    validatePlace liquorPlace "bar" =
      (!isGloballyIneligible liquorPlace &&
        !excludesByType barRules liquorPlace.types &&
        !excludesByKeyword barRules (jsToLower liquorPlace.name) &&
        (if ("bar" : String) = "misc" then
          !(hasOnlyGenericTypes liquorPlace.types ||
            isGenericName liquorPlace.name || isAddressLike liquorPlace.name)
        else
          (barLiquorCase "bar" liquorPlace.types ||
            barRules.types.any (fun t => liquorPlace.types.contains t) ||
            barRules.keywords.any
              (fun k => strIncludes (jsToLower liquorPlace.name) k)))) :=
  ⟨by decide, validatePlace_amended liquorPlace "bar" barRules (by decide)⟩

/-- A category that validates must be a key of CLASSIFICATION_RULES,
hence a member of the 13-category taxonomy. -/
theorem validate_implies_taxonomy (o : Option RawPlace) (c : String)
    (h : validateOriginal o c = true) : c ∈ POI_CATEGORIES := by
  cases o with
  | none => simp [validateOriginal] at h
  | some p =>
    unfold validateOriginal validatePlace at h
    cases hr : rulesFor c with
    | none =>
      rw [hr] at h
      simp at h
    | some r =>
      clear h
      unfold rulesFor at hr
      cases hf : CLASSIFICATION_RULES.find? (fun pr => pr.1 == c) with
      | none =>
        rw [hf] at hr
        simp at hr
      | some pr =>
        have hp := @List.find?_some _ (fun pr : String × CatRules => pr.1 == c)
          pr CLASSIFICATION_RULES hf
        have hm : pr ∈ CLASSIFICATION_RULES := List.mem_of_find?_eq_some hf
        have hc : pr.1 = c := by simpa [beq_iff_eq] using hp
        subst hc
        fin_cases hm <;> decide

/-- The AI stage keeps the rule-based result sound: whatever the lookup
returns, the emitted record still validates against its (possibly
replaced) category and still satisfies the allow-list. -/
theorem applyAI_sound (cats : List String) (lookup : String → Option AIRaw)
    (x : ClassifiedPlace)
    (hval : validateOriginal x.original x.category = true)
    (hcat : cats ≠ [] → x.category ∈ cats) :
    validateOriginal (applyAI cats lookup x).original
        (applyAI cats lookup x).category = true ∧
    (cats ≠ [] → (applyAI cats lookup x).category ∈ cats) := by
  unfold applyAI
  cases lookup (aiLookupKey x) with
  | none => exact ⟨hval, hcat⟩
  | some ai =>
    dsimp only
    cases hv : ai.isValid with
    | false =>
      simp only [hv, Bool.false_eq_true, if_false]
      exact ⟨hval, hcat⟩
    | true =>
      simp only [hv, if_true]
      split_ifs with hcond
      · obtain ⟨haiv, hallow⟩ := hcond
        refine ⟨haiv, fun hne => ?_⟩
        rcases hallow with h0 | hmem
        · exact absurd (List.length_eq_zero.mp h0) hne
        · simpa using hmem
      · exact ⟨hval, hcat⟩

/-- C1: every record emitted by processPlaces — under any allow-list,
any AI configuration and any behaviour of the AI lookup — carries a
category in the fixed 13-category taxonomy, passes validatePlace for
that assigned category against its original gateway record, and
satisfies the caller's allow-list when one was supplied. -/
theorem processPlaces_invariant (raw : List RawPlace) (cats : List String)
    (useAI hasAI : Bool) (lookup : String → Option AIRaw)
    (cp : ClassifiedPlace)
    (hcp : cp ∈ processPlaces raw cats useAI hasAI lookup) :
    cp.category ∈ POI_CATEGORIES ∧
    validateOriginal cp.original cp.category = true ∧
    (cats ≠ [] → cp.category ∈ cats) := by
  unfold processPlaces at hcp
  dsimp only at hcp
  by_cases hlen : 0 < cats.length
  · rw [if_pos hlen] at hcp
    split at hcp <;>
      (rw [List.mem_map] at hcp
       obtain ⟨x, hx, rfl⟩ := hcp
       rw [List.mem_filter] at hx
       obtain ⟨hx1, hx2⟩ := hx
       rw [List.mem_filter] at hx1
       have hval : validateOriginal x.original x.category = true := hx1.2
       have hallow : cats ≠ [] → x.category ∈ cats := fun _ => by simpa using hx2)
    · obtain ⟨hv2, ha2⟩ := applyAI_sound cats lookup x hval hallow
      exact ⟨validate_implies_taxonomy _ _ hv2, hv2, ha2⟩
    · exact ⟨validate_implies_taxonomy _ _ hval, hval, hallow⟩
  · rw [if_neg hlen] at hcp
    have hcats : cats = [] := by
      cases cats with
      | nil => rfl
      | cons a l => exact absurd (by simp) hlen
    split at hcp <;>
      (rw [List.mem_map] at hcp
       obtain ⟨x, hx, rfl⟩ := hcp
       rw [List.mem_filter] at hx
       have hval : validateOriginal x.original x.category = true := hx.2
       have hallow : cats ≠ [] → x.category ∈ cats :=
         fun hne => absurd hcats hne)
    · obtain ⟨hv2, ha2⟩ := applyAI_sound cats lookup x hval hallow
      exact ⟨validate_implies_taxonomy _ _ hv2, hv2, ha2⟩
    · exact ⟨validate_implies_taxonomy _ _ hval, hval, hallow⟩

/-- Witness for C1: "Central Park" tagged ["park"] survives the
pipeline with category park, which validates and is in the taxonomy. -/
theorem processPlaces_invariant_witness :
    markRuleBased (mkClassified centralPark) ∈
      processPlaces [centralPark] [] false false
        (fun _ : String => (none : Option AIRaw)) ∧
    (markRuleBased (mkClassified centralPark)).category ∈ POI_CATEGORIES ∧
    validateOriginal (markRuleBased (mkClassified centralPark)).original
        (markRuleBased (mkClassified centralPark)).category = true ∧
    (([] : List String) ≠ [] →
      (markRuleBased (mkClassified centralPark)).category ∈ ([] : List String)) := by
  have hl : processPlaces [centralPark] [] false false
      (fun _ : String => (none : Option AIRaw)) =
      [markRuleBased (mkClassified centralPark)] := rfl
  have hmem : markRuleBased (mkClassified centralPark) ∈
      processPlaces [centralPark] [] false false
        (fun _ : String => (none : Option AIRaw)) := by
    rw [hl]
    exact List.mem_singleton_self _
  have h := processPlaces_invariant [centralPark] [] false false
    (fun _ : String => (none : Option AIRaw))
    (markRuleBased (mkClassified centralPark)) hmem
  exact ⟨hmem, h.1, h.2.1, h.2.2⟩

/-- Membership through stable insertion. -/
theorem insertDesc_mem (x y : QueryPoint) (l : List QueryPoint) :
    y ∈ insertDesc x l ↔ y = x ∨ y ∈ l := by
  induction l with
  | nil => simp [insertDesc]
  | cons a t ih =>
    unfold insertDesc
    split_ifs with h
    · simp only [List.mem_cons]
    · simp only [List.mem_cons, ih]
      tauto

/-- Insertion adds exactly one element. -/
theorem insertDesc_length (x : QueryPoint) (l : List QueryPoint) :
    (insertDesc x l).length = l.length + 1 := by
  induction l with
  | nil => simp [insertDesc]
  | cons a t ih =>
    unfold insertDesc
    split_ifs with h
    · simp
    · simp [ih]

/-- Membership through the insertion fold. -/
theorem foldl_insertDesc_mem (l : List QueryPoint) :
    ∀ (acc : List QueryPoint) (y : QueryPoint),
    (y ∈ l.foldl (fun a x => insertDesc x a) acc ↔ y ∈ acc ∨ y ∈ l) := by
  induction l with
  | nil => intro acc y; simp
  | cons a t ih =>
    intro acc y
    rw [List.foldl_cons, ih, insertDesc_mem]
    simp only [List.mem_cons]
    tauto

/-- The sort is a permutation in the weak sense needed here:
it has the same members. -/
theorem sortByPriorityDesc_mem (l : List QueryPoint) (y : QueryPoint) :
    y ∈ sortByPriorityDesc l ↔ y ∈ l := by
  unfold sortByPriorityDesc
  rw [foldl_insertDesc_mem]
  simp

/-- Length through the insertion fold. -/
theorem foldl_insertDesc_length (l : List QueryPoint) :
    ∀ acc : List QueryPoint,
    (l.foldl (fun a x => insertDesc x a) acc).length = acc.length + l.length := by
  induction l with
  | nil => intro acc; simp
  | cons a t ih =>
    intro acc
    rw [List.foldl_cons, ih, insertDesc_length]
    simp only [List.length_cons]
    omega

/-- The sort preserves length. -/
theorem sortByPriorityDesc_length (l : List QueryPoint) :
    (sortByPriorityDesc l).length = l.length := by
  unfold sortByPriorityDesc
  rw [foldl_insertDesc_length]
  simp

/-- Insertion preserves descending order. -/
theorem insertDesc_sorted (x : QueryPoint) (l : List QueryPoint)
    (h : SortedDescByPriority l) : SortedDescByPriority (insertDesc x l) := by
  induction l with
  | nil => simp [insertDesc, SortedDescByPriority]
  | cons a t ih =>
    obtain ⟨ha, ht⟩ := List.pairwise_cons.mp h
    unfold insertDesc
    split_ifs with hlt
    · refine List.pairwise_cons.mpr ⟨?_, h⟩
      intro z hz
      rcases List.mem_cons.mp hz with rfl | hzt
      · exact le_of_lt hlt
      · exact le_trans (ha z hzt) (le_of_lt hlt)
    · refine List.pairwise_cons.mpr ⟨?_, ih ht⟩
      intro z hz
      rcases (insertDesc_mem x z t).mp hz with rfl | hzt
      · exact not_lt.mp hlt
      · exact ha z hzt

/-- The output of the sort is in descending priority order. -/
theorem sortByPriorityDesc_sorted (l : List QueryPoint) :
    SortedDescByPriority (sortByPriorityDesc l) := by
  have main : ∀ (l acc : List QueryPoint), SortedDescByPriority acc →
      SortedDescByPriority (l.foldl (fun a x => insertDesc x a) acc) := by
    intro l
    induction l with
    | nil => intro acc h; exact h
    | cons a t ih =>
      intro acc h
      rw [List.foldl_cons]
      exact ih _ (insertDesc_sorted a acc h)
  exact main l [] (by simp [SortedDescByPriority])

/-- Folding insertions of priority-at-most-one points below a
priority-one head keeps that head first (stability of the sort). -/
theorem foldl_insertDesc_head (l : List QueryPoint) (c : QueryPoint)
    (hc : 1 ≤ c.priority) :
    ∀ acc : List QueryPoint, acc.head? = some c →
    (∀ z ∈ acc, z.priority ≤ 1) → (∀ z ∈ l, z.priority ≤ 1) →
    (l.foldl (fun a x => insertDesc x a) acc).head? = some c := by
  induction l with
  | nil =>
    intro acc hhead _ _
    simpa using hhead
  | cons q qs ih =>
    intro acc hhead hacc hl
    rw [List.foldl_cons]
    apply ih
    · cases acc with
      | nil => simp at hhead
      | cons b bs =>
        obtain rfl : b = c := by simpa using hhead
        unfold insertDesc
        rw [if_neg (not_lt.mpr (le_trans (hl q (by simp)) hc))]
        rfl
    · intro z hz
      rcases (insertDesc_mem q z acc).mp hz with hzq | hz2
      · rw [hzq]
        exact hl q (by simp)
      · exact hacc z hz2
    · intro z hz
      exact hl z (by simp [hz])

/-- The sort keeps a maximal-priority first element first. -/
theorem sortByPriorityDesc_head (l : List QueryPoint) (c : QueryPoint)
    (hh : l.head? = some c) (hc : 1 ≤ c.priority)
    (hall : ∀ z ∈ l, z.priority ≤ 1) :
    (sortByPriorityDesc l).head? = some c := by
  cases l with
  | nil => simp at hh
  | cons q qs =>
    have hq : q = c := by simpa using hh
    subst hq
    unfold sortByPriorityDesc
    rw [List.foldl_cons]
    apply foldl_insertDesc_head qs q hc
    · rfl
    · intro z hz
      rcases (insertDesc_mem q z []).mp hz with hzq | hz2
      · rw [hzq]
        exact hall q (by simp)
      · simp at hz2
    · intro z hz
      exact hall z (by simp [hz])

/-- The inner ring for-loop only appends, and every appended point
passed the bounds check and carries the ring's priority. -/
theorem addRingPoints_spec (M : RMath) (g : GridSampler)
    (cLat cLon prio r : ℚ) (nPts : ℕ) :
    ∀ (rem i : ℕ) (acc : List QueryPoint),
    ∃ extra : List QueryPoint,
      addRingPoints M g cLat cLon prio r nPts i rem acc = acc ++ extra ∧
      (∀ z ∈ extra, inGridBounds g.bounds z.lat z.lon = true ∧
        z.priority = prio) := by
  intro rem
  induction rem with
  | zero =>
    intro i acc
    exact ⟨[], by simp [addRingPoints], by simp⟩
  | succ m ih =>
    intro i acc
    unfold addRingPoints
    dsimp only
    split_ifs with hlen hin
    · obtain ⟨extra, heq, hex⟩ := ih (i + 1)
        (acc ++ [⟨cLat + metersToLatDelta r * M.cosQ (2 * M.piQ * i / nPts),
          cLon + metersToLonDelta M r cLat * M.sinQ (2 * M.piQ * i / nPts),
          prio⟩])
      refine ⟨(⟨cLat + metersToLatDelta r * M.cosQ (2 * M.piQ * i / nPts),
          cLon + metersToLonDelta M r cLat * M.sinQ (2 * M.piQ * i / nPts),
          prio⟩ : QueryPoint) :: extra, ?_, ?_⟩
      · rw [heq]
        simp
      · intro z hz
        rcases List.mem_cons.mp hz with hzq | hz2
        · rw [hzq]
          exact ⟨hin, rfl⟩
        · exact hex z hz2
    · obtain ⟨extra, heq, hex⟩ := ih (i + 1) acc
      exact ⟨extra, heq, hex⟩
    · exact ⟨[], by simp, by simp⟩

/-- The inner ring for-loop respects the maxPoints cap. -/
theorem addRingPoints_length (M : RMath) (g : GridSampler)
    (cLat cLon prio r : ℚ) (nPts : ℕ) :
    ∀ (rem i : ℕ) (acc : List QueryPoint), acc.length ≤ g.maxPoints →
    (addRingPoints M g cLat cLon prio r nPts i rem acc).length ≤ g.maxPoints := by
  intro rem
  induction rem with
  | zero =>
    intro i acc h
    simpa [addRingPoints] using h
  | succ m ih =>
    intro i acc h
    unfold addRingPoints
    dsimp only
    split_ifs with hlen hin
    · apply ih
      simp only [List.length_append, List.length_cons, List.length_nil]
      omega
    · exact ih (i + 1) acc h
    · exact h

/-- One while-iteration advances the ring index by one and keeps the
ring radius at least the ring index (the schedule grows the radius by
at least centerDensity per ring when centerDensity ≤ edgeDensity). -/
theorem ringStep_index_radius (M : RMath) (g : GridSampler)
    (cLat cLon maxDist : ℚ) (st : RingState)
    (hcd : 1 ≤ g.centerDensity) (hce : g.centerDensity ≤ g.edgeDensity) :
    (ringStep M g cLat cLon maxDist st).ringIndex = st.ringIndex + 1 ∧
    ((ringStep M g cLat cLon maxDist st).ringIndex : ℚ) ≤
      (ringStep M g cLat cLon maxDist st).ringRadius := by
  unfold ringStep
  dsimp only
  refine ⟨rfl, ?_⟩
  push_cast
  have hK : (0 : ℚ) ≤ (st.ringIndex : ℚ) + 1 := by positivity
  nlinarith [mul_nonneg hK (sub_nonneg.mpr hcd),
    mul_nonneg hK (sub_nonneg.mpr hce)]

/-- One while-iteration preserves the ring invariant. -/
theorem ringStep_inv (M : RMath) (g : GridSampler)
    (cLat cLon maxDist : ℚ) (st : RingState)
    (hcd : 1 ≤ g.centerDensity) (hce : g.centerDensity ≤ g.edgeDensity)
    (hinv : ringInv g cLat cLon st) (hguard : ringGuard g maxDist st) :
    ringInv g cLat cLon (ringStep M g cLat cLon maxDist st) := by
  obtain ⟨hlen, hbnd, hhead, hprio, hidx, hidx1⟩ := hinv
  obtain ⟨hlt, hlenlt⟩ := hguard
  have hr0 : (0 : ℚ) < st.ringRadius := by
    have h1 : (1 : ℚ) ≤ (st.ringIndex : ℚ) := by exact_mod_cast hidx1
    linarith
  have hmd : (0 : ℚ) < maxDist := lt_trans hr0 hlt
  have hfrac0 : (0 : ℚ) ≤ min (st.ringRadius / maxDist) 1 :=
    le_min (div_nonneg hr0.le hmd.le) zero_le_one
  have hprio1 : ringPriority maxDist st.ringRadius ≤ 1 := by
    unfold ringPriority
    linarith
  obtain ⟨hstep1, hstep2⟩ :=
    ringStep_index_radius M g cLat cLon maxDist st hcd hce
  obtain ⟨extra, heq, hex⟩ := addRingPoints_spec M g cLat cLon
    (ringPriority maxDist st.ringRadius) st.ringRadius
    ((max 4 ⌊2 * M.piQ * st.ringRadius /
        (g.centerDensity + (g.edgeDensity - g.centerDensity) *
          min (st.ringRadius / maxDist) 1)⌋).toNat)
    ((max 4 ⌊2 * M.piQ * st.ringRadius /
        (g.centerDensity + (g.edgeDensity - g.centerDensity) *
          min (st.ringRadius / maxDist) 1)⌋).toNat)
    0 st.points
  refine ⟨?_, ?_, ?_, ?_, hstep2, ?_⟩
  · exact addRingPoints_length M g cLat cLon _ _ _ _ _ st.points hlen
  · intro p hp
    unfold ringStep at hp
    dsimp only at hp
    rw [heq] at hp
    rcases List.mem_append.mp hp with hp1 | hp2
    · exact hbnd p hp1
    · exact (hex p hp2).1
  · show (addRingPoints M g cLat cLon _ _ _ _ _ st.points).head? = _
    rw [heq]
    cases hq : st.points with
    | nil => rw [hq] at hhead; simp at hhead
    | cons b bs =>
      rw [hq] at hhead
      simp only [List.head?_cons, Option.some.injEq] at hhead
      rw [List.cons_append, List.head?_cons, hhead]
  · intro p hp
    unfold ringStep at hp
    dsimp only at hp
    rw [heq] at hp
    rcases List.mem_append.mp hp with hp1 | hp2
    · exact hprio p hp1
    · rw [(hex p hp2).2]
      exact hprio1
  · rw [hstep1]
    omega

/-- The ring loop preserves the invariant for any fuel. -/
theorem ringLoop_inv (M : RMath) (g : GridSampler)
    (cLat cLon maxDist : ℚ)
    (hcd : 1 ≤ g.centerDensity) (hce : g.centerDensity ≤ g.edgeDensity) :
    ∀ (fuel : ℕ) (st : RingState), ringInv g cLat cLon st →
    ringInv g cLat cLon (ringLoop M g cLat cLon maxDist fuel st) := by
  intro fuel
  induction fuel with
  | zero => intro st h; exact h
  | succ n ih =>
    intro st h
    unfold ringLoop
    split_ifs with hg
    · exact ih _ (ringStep_inv M g cLat cLon maxDist st hcd hce h hg)
    · exact h

/-- With enough fuel the loop reaches a state where the guard fails:
the radius grows by at least 1 per ring, so once the fuel exceeds
maxDist the loop has stopped for good. -/
theorem ringLoop_ends (M : RMath) (g : GridSampler)
    (cLat cLon maxDist : ℚ)
    (hcd : 1 ≤ g.centerDensity) (hce : g.centerDensity ≤ g.edgeDensity) :
    ∀ (fuel : ℕ) (st : RingState),
    (st.ringIndex : ℚ) ≤ st.ringRadius →
    maxDist ≤ (st.ringIndex : ℚ) + fuel →
    ¬ ringGuard g maxDist (ringLoop M g cLat cLon maxDist fuel st) := by
  intro fuel
  induction fuel with
  | zero =>
    intro st hr hmd
    unfold ringLoop
    rintro ⟨hlt, -⟩
    push_cast at hmd
    linarith
  | succ n ih =>
    intro st hr hmd
    unfold ringLoop
    split_ifs with hg
    · obtain ⟨hstep1, hstep2⟩ :=
        ringStep_index_radius M g cLat cLon maxDist st hcd hce
      apply ih _ hstep2
      rw [hstep1]
      push_cast
      push_cast at hmd
      linarith
    · exact hg

/-- C5: under the documented parameter ranges (a proper bounding box,
centerDensity at least 1 and at most edgeDensity, maxPoints at least 1
— what parseSeedFlags admits), generatePoints returns at most maxPoints
points, every returned point lies within the bounding box, the first
element is the box centroid with priority 1.0, and priorities are
non-increasing across the returned sequence.  The library-function
parameter M is arbitrary. -/
theorem generatePoints_spec (M : RMath) (g : GridSampler)
    (hlat : g.bounds.southwest.lat ≤ g.bounds.northeast.lat)
    (hlon : g.bounds.southwest.lon ≤ g.bounds.northeast.lon)
    (hcd : 1 ≤ g.centerDensity) (hce : g.centerDensity ≤ g.edgeDensity)
    (hmp : 1 ≤ g.maxPoints) :
    (generatePoints M g).length ≤ g.maxPoints ∧
    (∀ p ∈ generatePoints M g, inGridBounds g.bounds p.lat p.lon = true) ∧
    (generatePoints M g).head? =
      some ⟨gridCenterLat g, gridCenterLon g, 1⟩ ∧
    SortedDescByPriority (generatePoints M g) := by
  have hinv0 : ringInv g (gridCenterLat g) (gridCenterLon g) (gridInit g) := by
    refine ⟨by simpa [gridInit] using hmp, ?_, rfl, ?_, ?_, le_rfl⟩
    · intro p hp
      simp only [gridInit, List.mem_singleton] at hp
      rw [hp]
      unfold inGridBounds gridCenterLat gridCenterLon
      apply decide_eq_true
      refine ⟨by linarith, by linarith, by linarith, by linarith⟩
    · intro p hp
      simp only [gridInit, List.mem_singleton] at hp
      rw [hp]
    · show ((1 : ℕ) : ℚ) ≤ g.centerDensity
      push_cast
      exact hcd
  have hinv := ringLoop_inv M g (gridCenterLat g) (gridCenterLon g)
    (gridMaxDist M g) hcd hce (gridFuel M g) (gridInit g) hinv0
  obtain ⟨hlen, hbnd, hhead, hprio, -, -⟩ := hinv
  refine ⟨?_, ?_, ?_, ?_⟩
  · show (sortByPriorityDesc (gridRingFinal M g).points).length ≤ g.maxPoints
    rw [sortByPriorityDesc_length]
    exact hlen
  · intro p hp
    have hp2 : p ∈ (gridRingFinal M g).points :=
      (sortByPriorityDesc_mem _ p).mp hp
    exact hbnd p hp2
  · exact sortByPriorityDesc_head _ _ hhead le_rfl hprio
  · exact sortByPriorityDesc_sorted _

/-- Witness for C5 on a concrete sampler (unit box, centerDensity 1,
edgeDensity 2, maxPoints 5) with a concrete library-function
instantiation. -/
theorem generatePoints_spec_witness :
    g0.bounds.southwest.lat ≤ g0.bounds.northeast.lat ∧
    g0.bounds.southwest.lon ≤ g0.bounds.northeast.lon ∧
    (1 : ℚ) ≤ g0.centerDensity ∧ g0.centerDensity ≤ g0.edgeDensity ∧
    1 ≤ g0.maxPoints ∧
    (generatePoints M0 g0).length ≤ g0.maxPoints ∧
    (generatePoints M0 g0).head? =
      some ⟨gridCenterLat g0, gridCenterLon g0, 1⟩ := by
  have h := generatePoints_spec M0 g0 (by decide) (by decide) (by decide)
    (by decide) (by decide)
  exact ⟨by decide, by decide, by decide, by decide, by decide,
    h.1, h.2.2.1⟩

/-- C6: ring generation continues exactly while fewer than maxPoints
points are collected and the ring radius is below maxDist (the
max-extent quantity the spec calls the half-diagonal) and stops as soon
as either fails; at the exit state of the loop one of the two stopping
conditions holds; and the per-ring priority is the linear interpolation
1 - (radius / maxDist) / 2, equal to 1.0 at the centre, 0.5 at maxDist,
and non-increasing in the radius. -/
theorem ringLoop_stopping (M : RMath) (g : GridSampler)
    (hcd : 1 ≤ g.centerDensity) (hce : g.centerDensity ≤ g.edgeDensity) :
    (∀ (fuel : ℕ) (st : RingState),
      ringLoop M g (gridCenterLat g) (gridCenterLon g) (gridMaxDist M g)
          (fuel + 1) st =
        if ringGuard g (gridMaxDist M g) st then
          ringLoop M g (gridCenterLat g) (gridCenterLon g) (gridMaxDist M g)
            fuel
            (ringStep M g (gridCenterLat g) (gridCenterLon g)
              (gridMaxDist M g) st)
        else st) ∧
    (g.maxPoints ≤ (gridRingFinal M g).points.length ∨
      gridMaxDist M g ≤ (gridRingFinal M g).ringRadius) ∧
    (∀ r : ℚ, 0 ≤ r → r ≤ gridMaxDist M g → 0 < gridMaxDist M g →
      ringPriority (gridMaxDist M g) r = 1 - r / gridMaxDist M g / 2) ∧
    ringPriority (gridMaxDist M g) 0 = 1 ∧
    (0 < gridMaxDist M g →
      ringPriority (gridMaxDist M g) (gridMaxDist M g) = 1 / 2) ∧
    (∀ r1 r2 : ℚ, 0 ≤ r1 → r1 ≤ r2 → 0 < gridMaxDist M g →
      ringPriority (gridMaxDist M g) r2 ≤ ringPriority (gridMaxDist M g) r1) := by
  refine ⟨fun fuel st => rfl, ?_, ?_, ?_, ?_, ?_⟩
  · have hend := ringLoop_ends M g (gridCenterLat g) (gridCenterLon g)
      (gridMaxDist M g) hcd hce (gridFuel M g) (gridInit g)
      (by
        show ((1 : ℕ) : ℚ) ≤ g.centerDensity
        push_cast
        exact hcd)
      (by
        show gridMaxDist M g ≤ ((1 : ℕ) : ℚ) + (gridFuel M g : ℚ)
        have h1 : gridMaxDist M g ≤ max (gridMaxDist M g) 0 := le_max_left _ _
        have h2 : (max (gridMaxDist M g) 0 : ℚ) ≤ ⌈max (gridMaxDist M g) 0⌉ :=
          Int.le_ceil _
        have h3 : (⌈max (gridMaxDist M g) 0⌉ : ℚ) ≤
            ((⌈max (gridMaxDist M g) 0⌉.toNat : ℤ) : ℚ) := by
          exact_mod_cast Int.cast_le.mpr (Int.self_le_toNat _)
        unfold gridFuel
        push_cast
        push_cast at h3
        linarith)
    unfold ringGuard at hend
    push_neg at hend
    rcases lt_or_le (gridRingFinal M g).ringRadius (gridMaxDist M g) with hl | hr
    · exact Or.inl (hend hl)
    · exact Or.inr hr
  · intro r hr0 hrm hmd
    unfold ringPriority
    rw [min_eq_left ((div_le_one hmd).mpr hrm)]
    ring
  · unfold ringPriority
    simp
  · intro hmd
    unfold ringPriority
    rw [div_self (ne_of_gt hmd)]
    norm_num
  · intro r1 r2 h1 h12 hmd
    unfold ringPriority
    have hmin : min (r1 / gridMaxDist M g) 1 ≤ min (r2 / gridMaxDist M g) 1 :=
      min_le_min (by gcongr) le_rfl
    linarith

/-- Witness for C6 at the concrete sampler and library instantiation. -/
theorem ringLoop_stopping_witness :
    (1 : ℚ) ≤ g0.centerDensity ∧ g0.centerDensity ≤ g0.edgeDensity ∧
    (g0.maxPoints ≤ (gridRingFinal M0 g0).points.length ∨
      gridMaxDist M0 g0 ≤ (gridRingFinal M0 g0).ringRadius) :=
  ⟨by decide, by decide,
    (ringLoop_stopping M0 g0 (by decide) (by decide)).2.1⟩
